import Mathlib

/-!
# Verification of the landed-cost engine (`src/calculations.py`) and the
# reverse-FOB solver (`src/app.py`)

Shallow embedding over `ℚ` of the import-cost simulator's core:

* `ShipmentConfig` / `LineItem` mirror the dataclass and the item-table
  columns used by the engine.
* `computeLandedCost` mirrors `compute_landed_cost` column by column;
  each intermediate column of the pandas DataFrame is its own definition.
* `solveReverseFob` mirrors `solve_reverse_fob_for_item` from `src/app.py`
  (its two bounded loops become fuel-indexed recursions with the same
  iteration counts, 25 expansions and `max_iter` bisection steps).

Floating-point arithmetic is modelled by exact rational arithmetic.
-/

/-- Mirror of the `ShipmentConfig` dataclass (src/calculations.py lines 6-39).
Fields not read by the engine (`state_destination`, `mode`,
`allocation_method`) are kept as inert strings. -/
structure ShipmentConfig where
  state_destination : String
  mode : String
  fx_rate_usd_brl : ℚ
  freight_international_usd : ℚ
  insurance_usd : ℚ
  insurance_pct : ℚ
  origin_charges_usd : ℚ
  thc_origin_usd : ℚ
  afrmm_pct : ℚ
  siscomex_brl : ℚ
  local_port_costs_brl : ℚ
  trucking_brl : ℚ
  other_local_costs_brl : ℚ
  regime : String
  purpose : String
  icms_rate : ℚ
  da_components : List String
  va_components : List String
  allocation_method : String
  deriving DecidableEq, Inhabited

/-- One row of the input item table: the numeric columns read by
`compute_landed_cost` (`Quantity`, `FOB_Unit_USD` and the per-item rate
columns that `app.py` puts in `items_df`). -/
structure LineItem where
  quantity : ℚ
  fob_unit_usd : ℚ
  ii_rate : ℚ
  ipi_rate : ℚ
  pis_rate : ℚ
  cofins_rate : ℚ
  icms_rate : ℚ
  deriving DecidableEq, Inhabited

/-- One row of the per-item result DataFrame: the original numeric columns
plus every column `compute_landed_cost` assigns. -/
structure ItemResult where
  Quantity : ℚ
  FOB_Unit_USD : ℚ
  II_rate : ℚ
  IPI_rate : ℚ
  PIS_rate : ℚ
  COFINS_rate : ℚ
  ICMS_rate : ℚ
  FOB_Total_USD : ℚ
  FOB_Total_BRL : ℚ
  Freight_BRL : ℚ
  Insurance_BRL : ℚ
  Origin_BRL : ℚ
  THC_Origin_BRL : ℚ
  AFRMM_BRL : ℚ
  Siscomex_BRL : ℚ
  Local_Port_BRL : ℚ
  Truck_BRL : ℚ
  Other_Local_BRL : ℚ
  VA_BRL : ℚ
  II_BRL : ℚ
  IPI_Base_BRL : ℚ
  IPI_BRL : ℚ
  PIS_COF_Base_BRL : ℚ
  PIS_BRL : ℚ
  COFINS_BRL : ℚ
  DA_for_ICMS_BRL : ℚ
  ICMS_BRL : ℚ
  Tax_Credit_BRL : ℚ
  Tax_paid_total_BRL : ℚ
  net_tax_total : ℚ
  Direct_costs_BRL : ℚ
  Landed_Cost_BRL : ℚ
  Unit_Cost_BRL : ℚ
  deriving DecidableEq, Inhabited

/-- The `summary` dict built at the end of `compute_landed_cost`
(src/calculations.py lines 296-303). -/
structure Summary where
  FOB_total_USD : ℚ
  FOB_total_BRL : ℚ
  Freight_total_BRL : ℚ
  Tax_paid_total_BRL : ℚ
  Tax_credit_total_BRL : ℚ
  Final_cost_BRL : ℚ
  deriving DecidableEq, Inhabited

/-- `items["FOB_Unit_USD"] * items["Quantity"]` for one row. -/
def fobLineUSD (it : LineItem) : ℚ := it.fob_unit_usd * it.quantity

/-- `(items["FOB_Unit_USD"] * items["Quantity"]).sum()` — the FOB allocation
base used by `_allocate_by_fob` (src/calculations.py line 47), also the
`FOB_Total_USD` shipment total of step 1. -/
def fobTotalUSD (items : List LineItem) : ℚ := (items.map fobLineUSD).sum

/-- The per-row share computed by `_allocate_by_fob`
(src/calculations.py lines 42-54): proportional to the row's FOB when the
shipment FOB total is positive, otherwise the equal-split fallback
`1 / max(len(items), 1)`.  `fobTot` is the shipment total and `n` the
number of rows of the table the allocator was called on. -/
def allocShare (fobTot : ℚ) (n : ℕ) (it : LineItem) : ℚ :=
  if fobTot > 0 then fobLineUSD it / fobTot
  else 1 / ((max n 1 : ℕ) : ℚ)

/-- `df["FOB_Total_BRL"]` column: FOB in BRL (line 130). -/
def fobTotalBRLcol (cfg : ShipmentConfig) (it : LineItem) : ℚ :=
  fobLineUSD it * cfg.fx_rate_usd_brl

/-- `freight_brl_total` (line 142). -/
def freightTotalBRL (cfg : ShipmentConfig) : ℚ :=
  cfg.freight_international_usd * cfg.fx_rate_usd_brl

/-- `df["Freight_BRL"]` (line 143). -/
def freightCol (cfg : ShipmentConfig) (fobTot : ℚ) (n : ℕ) (it : LineItem) : ℚ :=
  allocShare fobTot n it * freightTotalBRL cfg

/-- `insurance_usd`: the absolute amount when positive, otherwise
`fob_total_usd * insurance_pct` (lines 146-149). -/
def insuranceUsdTotal (cfg : ShipmentConfig) (fobTot : ℚ) : ℚ :=
  if cfg.insurance_usd > 0 then cfg.insurance_usd else fobTot * cfg.insurance_pct

/-- `df["Insurance_BRL"]` (lines 151-152). -/
def insuranceCol (cfg : ShipmentConfig) (fobTot : ℚ) (n : ℕ) (it : LineItem) : ℚ :=
  allocShare fobTot n it * (insuranceUsdTotal cfg fobTot * cfg.fx_rate_usd_brl)

/-- `df["Origin_BRL"]` (lines 155-157). -/
def originCol (cfg : ShipmentConfig) (fobTot : ℚ) (n : ℕ) (it : LineItem) : ℚ :=
  allocShare fobTot n it * (cfg.origin_charges_usd * cfg.fx_rate_usd_brl)

/-- `df["THC_Origin_BRL"]` (lines 160-162). -/
def thcOriginCol (cfg : ShipmentConfig) (fobTot : ℚ) (n : ℕ) (it : LineItem) : ℚ :=
  allocShare fobTot n it * (cfg.thc_origin_usd * cfg.fx_rate_usd_brl)

/-- `afrmm_brl_total` (line 168). -/
def afrmmTotalBRL (cfg : ShipmentConfig) : ℚ :=
  cfg.afrmm_pct * cfg.freight_international_usd * cfg.fx_rate_usd_brl

/-- `df["AFRMM_BRL"]` (line 169). -/
def afrmmCol (cfg : ShipmentConfig) (fobTot : ℚ) (n : ℕ) (it : LineItem) : ℚ :=
  allocShare fobTot n it * afrmmTotalBRL cfg

/-- `df["Siscomex_BRL"]` (lines 172-173). -/
def siscomexCol (cfg : ShipmentConfig) (fobTot : ℚ) (n : ℕ) (it : LineItem) : ℚ :=
  allocShare fobTot n it * cfg.siscomex_brl

/-- `df["Local_Port_BRL"]` (lines 176-177). -/
def localPortCol (cfg : ShipmentConfig) (fobTot : ℚ) (n : ℕ) (it : LineItem) : ℚ :=
  allocShare fobTot n it * cfg.local_port_costs_brl

/-- `df["Truck_BRL"]` (lines 180-181). -/
def truckCol (cfg : ShipmentConfig) (fobTot : ℚ) (n : ℕ) (it : LineItem) : ℚ :=
  allocShare fobTot n it * cfg.trucking_brl

/-- `df["Other_Local_BRL"]` (lines 184-185). -/
def otherLocalCol (cfg : ShipmentConfig) (fobTot : ℚ) (n : ℕ) (it : LineItem) : ℚ :=
  allocShare fobTot n it * cfg.other_local_costs_brl

/-- `df["VA_BRL"]`: FOB in BRL plus, for each entry of `cfg.va_components`,
the column mapped by `va_components_map` (lines 191-204); unmapped names
contribute nothing. -/
def vaCol (cfg : ShipmentConfig) (fobTot : ℚ) (n : ℕ) (it : LineItem) : ℚ :=
  fobTotalBRLcol cfg it +
    (cfg.va_components.map (fun comp =>
      if comp = "freight" then freightCol cfg fobTot n it
      else if comp = "insurance" then insuranceCol cfg fobTot n it
      else if comp = "origin_charges" then originCol cfg fobTot n it
      else if comp = "thc_origin" then thcOriginCol cfg fobTot n it
      else 0)).sum

/-- `df["II_BRL"]` (line 210). -/
def iiCol (cfg : ShipmentConfig) (fobTot : ℚ) (n : ℕ) (it : LineItem) : ℚ :=
  it.ii_rate * vaCol cfg fobTot n it

/-- `df["IPI_Base_BRL"]` (line 213). -/
def ipiBaseCol (cfg : ShipmentConfig) (fobTot : ℚ) (n : ℕ) (it : LineItem) : ℚ :=
  vaCol cfg fobTot n it + iiCol cfg fobTot n it

/-- `df["IPI_BRL"]` (line 214). -/
def ipiCol (cfg : ShipmentConfig) (fobTot : ℚ) (n : ℕ) (it : LineItem) : ℚ :=
  it.ipi_rate * ipiBaseCol cfg fobTot n it

/-- `df["PIS_COF_Base_BRL"]` (line 217): `VA + II + IPI`. -/
def pisCofBaseCol (cfg : ShipmentConfig) (fobTot : ℚ) (n : ℕ) (it : LineItem) : ℚ :=
  vaCol cfg fobTot n it + iiCol cfg fobTot n it + ipiCol cfg fobTot n it

/-- `df["PIS_BRL"]` (line 218). -/
def pisCol (cfg : ShipmentConfig) (fobTot : ℚ) (n : ℕ) (it : LineItem) : ℚ :=
  it.pis_rate * pisCofBaseCol cfg fobTot n it

/-- `df["COFINS_BRL"]` (line 219). -/
def cofinsCol (cfg : ShipmentConfig) (fobTot : ℚ) (n : ℕ) (it : LineItem) : ℚ :=
  it.cofins_rate * pisCofBaseCol cfg fobTot n it

/-- `df["DA_for_ICMS_BRL"]` (lines 225-237): for each entry of
`cfg.da_components`, the column mapped by `da_map`. -/
def daForIcmsCol (cfg : ShipmentConfig) (fobTot : ℚ) (n : ℕ) (it : LineItem) : ℚ :=
  (cfg.da_components.map (fun daName =>
    if daName = "afrmm" then afrmmCol cfg fobTot n it
    else if daName = "siscomex" then siscomexCol cfg fobTot n it
    else 0)).sum

/-- `base_icms_numerator` (lines 239-246). -/
def icmsNumerCol (cfg : ShipmentConfig) (fobTot : ℚ) (n : ℕ) (it : LineItem) : ℚ :=
  vaCol cfg fobTot n it + iiCol cfg fobTot n it + ipiCol cfg fobTot n it +
    pisCol cfg fobTot n it + cofinsCol cfg fobTot n it + daForIcmsCol cfg fobTot n it

/-- `df["ICMS_BRL"]` (lines 248-252): the shipment-level `cfg.icms_rate` is
used for every row; the guard is `icms_rate > 0`. -/
def icmsCol (cfg : ShipmentConfig) (fobTot : ℚ) (n : ℕ) (it : LineItem) : ℚ :=
  if cfg.icms_rate > 0 then
    icmsNumerCol cfg fobTot n it * cfg.icms_rate / (1 - cfg.icms_rate)
  else 0

/-- `_compute_tax_credits_per_item` (src/calculations.py lines 57-110),
per row: total credit from the computed tax amounts, by regime and
purpose.  `II_BRL` is read but never credited. -/
def taxCredit (cfg : ShipmentConfig) ( _ii ipi pis cofins icms : ℚ) : ℚ :=
  if cfg.regime = "simples" then 0
  else if cfg.purpose = "resale" then
    if cfg.regime = "presumido" then ipi + icms
    else if cfg.regime = "real" then ipi + pis + cofins + icms
    else 0
  else 0

/-- `df["Tax_Credit_BRL"]` (line 257). -/
def taxCreditCol (cfg : ShipmentConfig) (fobTot : ℚ) (n : ℕ) (it : LineItem) : ℚ :=
  taxCredit cfg (iiCol cfg fobTot n it) (ipiCol cfg fobTot n it)
    (pisCol cfg fobTot n it) (cofinsCol cfg fobTot n it) (icmsCol cfg fobTot n it)

/-- `df["Tax_paid_total_BRL"]` (lines 260-266). -/
def taxPaidCol (cfg : ShipmentConfig) (fobTot : ℚ) (n : ℕ) (it : LineItem) : ℚ :=
  iiCol cfg fobTot n it + ipiCol cfg fobTot n it + pisCol cfg fobTot n it +
    cofinsCol cfg fobTot n it + icmsCol cfg fobTot n it

/-- `df["net_tax_total"]` (line 269). -/
def netTaxCol (cfg : ShipmentConfig) (fobTot : ℚ) (n : ℕ) (it : LineItem) : ℚ :=
  taxPaidCol cfg fobTot n it - taxCreditCol cfg fobTot n it

/-- `df["Direct_costs_BRL"]` (lines 275-286). -/
def directCostsCol (cfg : ShipmentConfig) (fobTot : ℚ) (n : ℕ) (it : LineItem) : ℚ :=
  fobTotalBRLcol cfg it + freightCol cfg fobTot n it + insuranceCol cfg fobTot n it +
    originCol cfg fobTot n it + thcOriginCol cfg fobTot n it + afrmmCol cfg fobTot n it +
    siscomexCol cfg fobTot n it + localPortCol cfg fobTot n it + truckCol cfg fobTot n it +
    otherLocalCol cfg fobTot n it

/-- `df["Landed_Cost_BRL"]` (line 288). -/
def landedCostCol (cfg : ShipmentConfig) (fobTot : ℚ) (n : ℕ) (it : LineItem) : ℚ :=
  directCostsCol cfg fobTot n it + netTaxCol cfg fobTot n it

/-- `df["Unit_Cost_BRL"]` (line 291): the divisor is
`df["Quantity"].replace(0, 1.0)`. -/
def unitCostCol (cfg : ShipmentConfig) (fobTot : ℚ) (n : ℕ) (it : LineItem) : ℚ :=
  landedCostCol cfg fobTot n it / (if it.quantity = 0 then 1 else it.quantity)

/-- One output row of `compute_landed_cost`: the input columns carried
through by the DataFrame copy plus every assigned column. -/
def rowOf (cfg : ShipmentConfig) (fobTot : ℚ) (n : ℕ) (it : LineItem) : ItemResult :=
  { Quantity := it.quantity
    FOB_Unit_USD := it.fob_unit_usd
    II_rate := it.ii_rate
    IPI_rate := it.ipi_rate
    PIS_rate := it.pis_rate
    COFINS_rate := it.cofins_rate
    ICMS_rate := it.icms_rate
    FOB_Total_USD := fobLineUSD it
    FOB_Total_BRL := fobTotalBRLcol cfg it
    Freight_BRL := freightCol cfg fobTot n it
    Insurance_BRL := insuranceCol cfg fobTot n it
    Origin_BRL := originCol cfg fobTot n it
    THC_Origin_BRL := thcOriginCol cfg fobTot n it
    AFRMM_BRL := afrmmCol cfg fobTot n it
    Siscomex_BRL := siscomexCol cfg fobTot n it
    Local_Port_BRL := localPortCol cfg fobTot n it
    Truck_BRL := truckCol cfg fobTot n it
    Other_Local_BRL := otherLocalCol cfg fobTot n it
    VA_BRL := vaCol cfg fobTot n it
    II_BRL := iiCol cfg fobTot n it
    IPI_Base_BRL := ipiBaseCol cfg fobTot n it
    IPI_BRL := ipiCol cfg fobTot n it
    PIS_COF_Base_BRL := pisCofBaseCol cfg fobTot n it
    PIS_BRL := pisCol cfg fobTot n it
    COFINS_BRL := cofinsCol cfg fobTot n it
    DA_for_ICMS_BRL := daForIcmsCol cfg fobTot n it
    ICMS_BRL := icmsCol cfg fobTot n it
    Tax_Credit_BRL := taxCreditCol cfg fobTot n it
    Tax_paid_total_BRL := taxPaidCol cfg fobTot n it
    net_tax_total := netTaxCol cfg fobTot n it
    Direct_costs_BRL := directCostsCol cfg fobTot n it
    Landed_Cost_BRL := landedCostCol cfg fobTot n it
    Unit_Cost_BRL := unitCostCol cfg fobTot n it }

/-- `compute_landed_cost(items_df, cfg)` (src/calculations.py lines
113-305): returns the per-item table and the summary dict.  Every shared
cost is allocated with the share of `_allocate_by_fob`, whose FOB total
and row count are those of the whole table. -/
def computeLandedCost (items : List LineItem) (cfg : ShipmentConfig) :
    List ItemResult × Summary :=
  let fobTot := fobTotalUSD items
  let n := items.length
  let rows := items.map (rowOf cfg fobTot n)
  (rows,
    { FOB_total_USD := fobTot
      FOB_total_BRL := (rows.map (fun r => r.FOB_Total_BRL)).sum
      Freight_total_BRL := freightTotalBRL cfg
      Tax_paid_total_BRL := (rows.map (fun r => r.Tax_paid_total_BRL)).sum
      Tax_credit_total_BRL := (rows.map (fun r => r.Tax_Credit_BRL)).sum
      Final_cost_BRL := (rows.map (fun r => r.Landed_Cost_BRL)).sum })

/-- `base_df.copy(); df.loc[item_idx, "FOB_Unit_USD"] = p` — replace the
unit price of the row at position `k`, leaving everything else unchanged. -/
def setPrice : List LineItem → ℕ → ℚ → List LineItem
  | [], _, _ => []
  | it :: rest, 0, p => { it with fob_unit_usd := p } :: rest
  | it :: rest, Nat.succ k, p => it :: setPrice rest k p

/-- `float(per.loc[idx, "Unit_Cost_BRL"])`: the unit cost of row `idx` of
the engine's output (0 for an out-of-range index, which the app never
passes). -/
def unitCostAt (items : List LineItem) (cfg : ShipmentConfig) (idx : ℕ) : ℚ :=
  (((computeLandedCost items cfg).1.map (fun r => r.Unit_Cost_BRL)).getD idx 0)

/-- The upper-bound expansion loop of `solve_reverse_fob_for_item`
(src/app.py lines 50-58): evaluate the engine at `high`; stop if the cost
reaches the target, otherwise double `high`; `fuel` counts the remaining
iterations after the current one (the source runs `range(25)`, so the
loop is entered with `fuel = 24`).  Returns the final `(high, cost_high)`
pair, `high` having been doubled once more when the budget ran out. -/
def expandHigh (base : List LineItem) (cfg : ShipmentConfig) (idx : ℕ) (target : ℚ) :
    ℕ → ℚ → ℚ × ℚ
  | 0, high =>
      let c := unitCostAt (setPrice base idx high) cfg idx
      if c ≥ target then (high, c) else (high * 2, c)
  | Nat.succ fuel, high =>
      let c := unitCostAt (setPrice base idx high) cfg idx
      if c ≥ target then (high, c) else expandHigh base cfg idx target fuel (high * 2)

/-- The bisection loop of `solve_reverse_fob_for_item` (src/app.py lines
69-87), running at most `fuel` iterations and tracking the best
(closest-to-target) sample. -/
def bisectLoop (base : List LineItem) (cfg : ShipmentConfig) (idx : ℕ)
    (target tol : ℚ) : ℕ → ℚ → ℚ → ℚ → ℚ → ℚ × ℚ
  | 0, _, _, bestFob, bestCost => (bestFob, bestCost)
  | Nat.succ fuel, low, high, bestFob, bestCost =>
      let mid := (low + high) / 2
      let c := unitCostAt (setPrice base idx mid) cfg idx
      let best := if |c - target| < |bestCost - target| then (mid, c) else (bestFob, bestCost)
      let bracket := if c ≥ target then (low, mid) else (mid, high)
      if |c - target| ≤ tol then best
      else bisectLoop base cfg idx target tol fuel bracket.1 bracket.2 best.1 best.2

/-- `solve_reverse_fob_for_item(base_df, cfg, item_idx, target_unit_brl,
max_iter=40, tol=0.01)` (src/app.py lines 15-88).  The Python function
returns a pair of floats on every control path; its docstring's
`(None, None)` infeasible outcome is modelled as `none`, so the value is
`some (fob, cost)` exactly when the source returns numbers. -/
def solveReverseFob (base : List LineItem) (cfg : ShipmentConfig) (idx : ℕ)
    (target : ℚ) (maxIter : ℕ) (tol : ℚ) : Option (ℚ × ℚ) :=
  let costMin := unitCostAt (setPrice base idx 0) cfg idx
  if target ≤ costMin + tol then some (0, costMin)
  else
    let currentFob := (base.getD idx default).fob_unit_usd
    let high0 := if currentFob ≤ 0 then 1 else currentFob * 2
    let hc := expandHigh base cfg idx target 24 high0
    if hc.2 < target - tol then some (hc.1, hc.2)
    else some (bisectLoop base cfg idx target tol maxIter 0 hc.1 hc.1 hc.2)

/-! ## Basic lemmas about the embedding -/

theorem mem_computeLandedCost {items : List LineItem} {cfg : ShipmentConfig}
    {row : ItemResult} (h : row ∈ (computeLandedCost items cfg).1) :
    ∃ it ∈ items, row = rowOf cfg (fobTotalUSD items) items.length it := by
  simp only [computeLandedCost, List.mem_map] at h
  obtain ⟨it, hit, hrow⟩ := h
  exact ⟨it, hit, hrow.symm⟩

theorem fobTotalUSD_nil : fobTotalUSD [] = 0 := rfl

theorem fobTotalUSD_cons (a : LineItem) (l : List LineItem) :
    fobTotalUSD (a :: l) = fobLineUSD a + fobTotalUSD l := by
  simp [fobTotalUSD]

/-! ## Claim theorems for the gross-up, credits, PIS/COFINS base, guards -/

/-- Claim C1: for `0 < icms_rate < 1`, each item's `ICMS_BRL` equals
`N / (1 − rate) − N` where `N` is that item's
`VA_BRL + II_BRL + IPI_BRL + PIS_BRL + COFINS_BRL + DA_for_ICMS_BRL`, and
with the default `da_components` the customs-expense part of the base is
the allocated AFRMM plus Siscomex amounts. -/
theorem icms_grossup_correct (items : List LineItem) (cfg : ShipmentConfig)
    (row : ItemResult) (hrow : row ∈ (computeLandedCost items cfg).1)
    (h0 : 0 < cfg.icms_rate) (h1 : cfg.icms_rate < 1) :
    row.ICMS_BRL =
      (row.VA_BRL + row.II_BRL + row.IPI_BRL + row.PIS_BRL + row.COFINS_BRL +
          row.DA_for_ICMS_BRL) / (1 - cfg.icms_rate) -
        (row.VA_BRL + row.II_BRL + row.IPI_BRL + row.PIS_BRL + row.COFINS_BRL +
          row.DA_for_ICMS_BRL) ∧
      (cfg.da_components = ["afrmm", "siscomex"] →
        row.DA_for_ICMS_BRL = row.AFRMM_BRL + row.Siscomex_BRL) := by
  obtain ⟨it, hit, rfl⟩ := mem_computeLandedCost hrow
  constructor
  · simp only [rowOf, icmsCol, icmsNumerCol, if_pos h0]
    have hne : 1 - cfg.icms_rate ≠ 0 := by linarith
    field_simp
    ring
  · intro hda
    simp [rowOf, daForIcmsCol, hda]

/-- Claim C2 (amended): the per-item credit is zero for regime
`"simples"`; zero whenever the purpose string differs from `"resale"`
(including `"industria"`/`"industrialization"`, which the UI layer maps to
`"resale"` before calling); `IPI + ICMS` for `"presumido"` with resale;
`IPI + PIS + COFINS + ICMS` for `"real"` with resale (never `II`); and
net tax is the five taxes minus the credit. -/
theorem tax_credit_matrix (items : List LineItem) (cfg : ShipmentConfig)
    (row : ItemResult) (hrow : row ∈ (computeLandedCost items cfg).1) :
    (cfg.regime = "simples" → row.Tax_Credit_BRL = 0) ∧
      (cfg.purpose ≠ "resale" → row.Tax_Credit_BRL = 0) ∧
      (cfg.regime = "presumido" → cfg.purpose = "resale" →
        row.Tax_Credit_BRL = row.IPI_BRL + row.ICMS_BRL) ∧
      (cfg.regime = "real" → cfg.purpose = "resale" →
        row.Tax_Credit_BRL = row.IPI_BRL + row.PIS_BRL + row.COFINS_BRL + row.ICMS_BRL) ∧
      row.net_tax_total =
        row.II_BRL + row.IPI_BRL + row.PIS_BRL + row.COFINS_BRL + row.ICMS_BRL -
          row.Tax_Credit_BRL := by
  obtain ⟨it, hit, rfl⟩ := mem_computeLandedCost hrow
  refine ⟨?_, ?_, ?_, ?_, ?_⟩
  · intro h
    simp [rowOf, taxCreditCol, taxCredit, h]
  · intro h
    simp [rowOf, taxCreditCol, taxCredit, h]
  · intro hreg hpur
    simp [rowOf, taxCreditCol, taxCredit, hreg, hpur]
  · intro hreg hpur
    simp [rowOf, taxCreditCol, taxCredit, hreg, hpur]
  · simp [rowOf, netTaxCol, taxPaidCol]

/-- Claim C4 (amended): a zero-quantity item's unit cost equals its landed
cost (the divisor `Quantity.replace(0, 1.0)` is `1` there), with no
division by zero. -/
theorem zero_quantity_unit_cost (items : List LineItem) (cfg : ShipmentConfig)
    (row : ItemResult) (hrow : row ∈ (computeLandedCost items cfg).1)
    (hq : row.Quantity = 0) :
    row.Unit_Cost_BRL = row.Landed_Cost_BRL := by
  obtain ⟨it, hit, rfl⟩ := mem_computeLandedCost hrow
  simp only [rowOf] at hq ⊢
  simp [unitCostCol, landedCostCol, hq]

/-- Claim C5 (amended): both federal contributions are computed on the
base `VA_BRL + II_BRL + IPI_BRL`, not on the customs value alone. -/
theorem pis_cofins_base (items : List LineItem) (cfg : ShipmentConfig)
    (row : ItemResult) (hrow : row ∈ (computeLandedCost items cfg).1) :
    row.PIS_BRL = row.PIS_rate * (row.VA_BRL + row.II_BRL + row.IPI_BRL) ∧
      row.COFINS_BRL = row.COFINS_rate * (row.VA_BRL + row.II_BRL + row.IPI_BRL) := by
  obtain ⟨it, hit, rfl⟩ := mem_computeLandedCost hrow
  constructor
  · simp [rowOf, pisCol, pisCofBaseCol]
  · simp [rowOf, cofinsCol, pisCofBaseCol]

/-- Claim C7 (amended): the explicit guard zeroes `ICMS_BRL` only for
`icms_rate ≤ 0`; for `icms_rate > 1` the gross-up formula is still
applied (with a negative denominator), so the state VAT is not zero. -/
theorem icms_guard_only_nonpositive (items : List LineItem) (cfg : ShipmentConfig)
    (row : ItemResult) (hrow : row ∈ (computeLandedCost items cfg).1) :
    (cfg.icms_rate ≤ 0 → row.ICMS_BRL = 0) ∧
      (1 < cfg.icms_rate →
        row.ICMS_BRL =
          (row.VA_BRL + row.II_BRL + row.IPI_BRL + row.PIS_BRL + row.COFINS_BRL +
              row.DA_for_ICMS_BRL) * cfg.icms_rate / (1 - cfg.icms_rate)) := by
  obtain ⟨it, hit, rfl⟩ := mem_computeLandedCost hrow
  constructor
  · intro h
    simp [rowOf, icmsCol, not_lt.mpr h]
  · intro h
    simp only [rowOf, icmsCol, icmsNumerCol, if_pos (by linarith : (0:ℚ) < cfg.icms_rate)]

/-- Claim C10 (amended): on an empty item table the engine raises nothing
and returns an empty per-item table; the summary's FOB totals, taxes,
credits and final cost are all `0`, but `Freight_total_BRL` is the
shipment-level `freight_international_usd * fx`, which is nonzero for
nonzero freight. -/
theorem empty_items_result (cfg : ShipmentConfig) :
    computeLandedCost [] cfg =
      ([], { FOB_total_USD := 0, FOB_total_BRL := 0,
             Freight_total_BRL := cfg.freight_international_usd * cfg.fx_rate_usd_brl,
             Tax_paid_total_BRL := 0, Tax_credit_total_BRL := 0,
             Final_cost_BRL := 0 }) := rfl

/-- Claim C9: `solve_reverse_fob_for_item` returns a numeric pair on every
control path — the `(None, None)` infeasible outcome promised by its
docstring (and checked for by its caller) is unreachable. -/
theorem solveReverseFob_never_infeasible (base : List LineItem) (cfg : ShipmentConfig)
    (idx : ℕ) (target : ℚ) (maxIter : ℕ) (tol : ℚ) :
    (solveReverseFob base cfg idx target maxIter tol).isSome = true := by
  simp only [solveReverseFob]
  split
  · rfl
  · split <;> split <;> rfl

/-! ## Claim C6: the per-item ICMS override column is ignored -/

/-- `df.loc[k, "ICMS_rate"] = v`: replace the ICMS override of the row at
position `k`. -/
def setItemIcmsRate : List LineItem → ℕ → ℚ → List LineItem
  | [], _, _ => []
  | it :: rest, 0, v => { it with icms_rate := v } :: rest
  | it :: rest, Nat.succ k, v => it :: setItemIcmsRate rest k v

theorem fobTotalUSD_setItemIcmsRate (items : List LineItem) (k : ℕ) (v : ℚ) :
    fobTotalUSD (setItemIcmsRate items k v) = fobTotalUSD items := by
  induction items generalizing k with
  | nil => rfl
  | cons a t ih =>
    cases k with
    | zero => simp [setItemIcmsRate, fobTotalUSD_cons, fobLineUSD]
    | succ k => simp [setItemIcmsRate, fobTotalUSD_cons, ih]

theorem length_setItemIcmsRate (items : List LineItem) (k : ℕ) (v : ℚ) :
    (setItemIcmsRate items k v).length = items.length := by
  induction items generalizing k with
  | nil => rfl
  | cons a t ih =>
    cases k with
    | zero => rfl
    | succ k => simp [setItemIcmsRate, ih]

theorem map_rowCol_setItemIcmsRate (cfg : ShipmentConfig) (fobTot : ℚ) (n : ℕ)
    (v : ℚ) (g : ItemResult → ℚ)
    (hg : ∀ it : LineItem,
      g (rowOf cfg fobTot n { it with icms_rate := v }) = g (rowOf cfg fobTot n it)) :
    ∀ (items : List LineItem) (k : ℕ),
      (setItemIcmsRate items k v).map (fun it => g (rowOf cfg fobTot n it)) =
        items.map (fun it => g (rowOf cfg fobTot n it)) := by
  intro items
  induction items with
  | nil => intro k; rfl
  | cons a t ih =>
    intro k
    cases k with
    | zero => simp [setItemIcmsRate, hg a]
    | succ k => simp [setItemIcmsRate, ih k]

/-- Claim C6 (amended): `compute_landed_cost` ignores the per-item
`ICMS_rate` column entirely — overwriting any item's override (zero or
not) changes neither the `ICMS_BRL` column nor the landed or unit cost
columns; every item is taxed at the shipment-level `cfg.icms_rate`. -/
theorem icms_override_ignored (items : List LineItem) (cfg : ShipmentConfig)
    (k : ℕ) (v : ℚ) :
    ((computeLandedCost (setItemIcmsRate items k v) cfg).1.map (fun r => r.ICMS_BRL) =
        (computeLandedCost items cfg).1.map (fun r => r.ICMS_BRL)) ∧
      ((computeLandedCost (setItemIcmsRate items k v) cfg).1.map (fun r => r.Landed_Cost_BRL) =
        (computeLandedCost items cfg).1.map (fun r => r.Landed_Cost_BRL)) ∧
      ((computeLandedCost (setItemIcmsRate items k v) cfg).1.map (fun r => r.Unit_Cost_BRL) =
        (computeLandedCost items cfg).1.map (fun r => r.Unit_Cost_BRL)) := by
  simp only [computeLandedCost, List.map_map, fobTotalUSD_setItemIcmsRate,
    length_setItemIcmsRate]
  refine ⟨?_, ?_, ?_⟩
  · exact map_rowCol_setItemIcmsRate cfg (fobTotalUSD items) items.length v
      (fun r => r.ICMS_BRL) (fun it => rfl) items k
  · exact map_rowCol_setItemIcmsRate cfg (fobTotalUSD items) items.length v
      (fun r => r.Landed_Cost_BRL) (fun it => rfl) items k
  · exact map_rowCol_setItemIcmsRate cfg (fobTotalUSD items) items.length v
      (fun r => r.Unit_Cost_BRL) (fun it => rfl) items k

/-! ## Claim C3: allocation conservation -/

theorem list_sum_map_mul_right (l : List LineItem) (f : LineItem → ℚ) (c : ℚ) :
    (l.map (fun x => f x * c)).sum = (l.map f).sum * c := by
  induction l with
  | nil => simp
  | cons a t ih => simp [ih, add_mul]

theorem allocShare_conserve (items : List LineItem) (h : items ≠ []) (C : ℚ) :
    (items.map (fun it => allocShare (fobTotalUSD items) items.length it * C)).sum = C := by
  by_cases hT : fobTotalUSD items > 0
  · have h1 : items.map (fun it => allocShare (fobTotalUSD items) items.length it * C) =
        items.map (fun it => fobLineUSD it * (C / fobTotalUSD items)) := by
      apply List.map_congr_left
      intro it _
      simp only [allocShare, if_pos hT]
      ring
    rw [h1, list_sum_map_mul_right]
    have h2 : (items.map fobLineUSD).sum = fobTotalUSD items := rfl
    rw [h2, mul_comm, div_mul_cancel₀ _ (ne_of_gt hT)]
  · have hn : 0 < items.length := List.length_pos.mpr h
    have hnq : ((items.length : ℕ) : ℚ) ≠ 0 := by
      exact_mod_cast Nat.pos_iff_ne_zero.mp hn
    have h1 : items.map (fun it => allocShare (fobTotalUSD items) items.length it * C) =
        items.map (fun _ => 1 / ((items.length : ℕ) : ℚ) * C) := by
      apply List.map_congr_left
      intro it _
      simp [allocShare, hT, Nat.max_eq_left hn]
    rw [h1]
    have h2 : ∀ (l : List LineItem) (c : ℚ), (l.map (fun _ => c)).sum = l.length * c := by
      intro l c
      induction l with
      | nil => simp
      | cons a t ih => simp [ih, add_mul, add_comm]
    rw [h2]
    field_simp

/-- Each per-item output row's allocated column is `share * total`; with a
zero FOB base the share is the equal split `1 / n`. -/
theorem allocShare_zero_base (items : List LineItem) (h : items ≠ [])
    (h0 : fobTotalUSD items = 0) (it : LineItem) (C : ℚ) :
    allocShare (fobTotalUSD items) items.length it * C = C / (items.length : ℚ) := by
  have hn : 0 < items.length := List.length_pos.mpr h
  rw [h0]
  simp only [allocShare, lt_irrefl, if_neg (lt_irrefl (0:ℚ)).elim]
  rw [if_neg (by norm_num), Nat.max_eq_left hn]
  ring

theorem col_sum_eq (cfg : ShipmentConfig) (items : List LineItem) (h : items ≠ [])
    (g : ItemResult → ℚ) (C : ℚ)
    (hg : ∀ it : LineItem,
      g (rowOf cfg (fobTotalUSD items) items.length it) =
        allocShare (fobTotalUSD items) items.length it * C) :
    ((computeLandedCost items cfg).1.map g).sum = C := by
  simp only [computeLandedCost, List.map_map]
  have h1 : items.map (fun it => g (rowOf cfg (fobTotalUSD items) items.length it)) =
      items.map (fun it => allocShare (fobTotalUSD items) items.length it * C) :=
    List.map_congr_left (fun it _ => hg it)
  calc (items.map (g ∘ rowOf cfg (fobTotalUSD items) items.length)).sum
      = (items.map (fun it => allocShare (fobTotalUSD items) items.length it * C)).sum := by
        rw [← h1]; rfl
    _ = C := allocShare_conserve items h C

/-- Claim C3: every allocated shared-cost column sums to its shipment
total, and with a zero FOB base every item receives `total / n`. -/
theorem allocation_conservation (cfg : ShipmentConfig) (items : List LineItem)
    (h : items ≠ []) :
    (((computeLandedCost items cfg).1.map (fun r => r.Freight_BRL)).sum = freightTotalBRL cfg ∧
      ((computeLandedCost items cfg).1.map (fun r => r.Insurance_BRL)).sum =
        insuranceUsdTotal cfg (fobTotalUSD items) * cfg.fx_rate_usd_brl ∧
      ((computeLandedCost items cfg).1.map (fun r => r.Origin_BRL)).sum =
        cfg.origin_charges_usd * cfg.fx_rate_usd_brl ∧
      ((computeLandedCost items cfg).1.map (fun r => r.THC_Origin_BRL)).sum =
        cfg.thc_origin_usd * cfg.fx_rate_usd_brl ∧
      ((computeLandedCost items cfg).1.map (fun r => r.AFRMM_BRL)).sum = afrmmTotalBRL cfg ∧
      ((computeLandedCost items cfg).1.map (fun r => r.Siscomex_BRL)).sum = cfg.siscomex_brl ∧
      ((computeLandedCost items cfg).1.map (fun r => r.Local_Port_BRL)).sum =
        cfg.local_port_costs_brl ∧
      ((computeLandedCost items cfg).1.map (fun r => r.Truck_BRL)).sum = cfg.trucking_brl ∧
      ((computeLandedCost items cfg).1.map (fun r => r.Other_Local_BRL)).sum =
        cfg.other_local_costs_brl) ∧
    (fobTotalUSD items = 0 → ∀ row ∈ (computeLandedCost items cfg).1,
      row.Freight_BRL = freightTotalBRL cfg / (items.length : ℚ) ∧
      row.Insurance_BRL =
        insuranceUsdTotal cfg (fobTotalUSD items) * cfg.fx_rate_usd_brl / (items.length : ℚ) ∧
      row.Origin_BRL = cfg.origin_charges_usd * cfg.fx_rate_usd_brl / (items.length : ℚ) ∧
      row.THC_Origin_BRL = cfg.thc_origin_usd * cfg.fx_rate_usd_brl / (items.length : ℚ) ∧
      row.AFRMM_BRL = afrmmTotalBRL cfg / (items.length : ℚ) ∧
      row.Siscomex_BRL = cfg.siscomex_brl / (items.length : ℚ) ∧
      row.Local_Port_BRL = cfg.local_port_costs_brl / (items.length : ℚ) ∧
      row.Truck_BRL = cfg.trucking_brl / (items.length : ℚ) ∧
      row.Other_Local_BRL = cfg.other_local_costs_brl / (items.length : ℚ)) := by
  constructor
  · refine ⟨?_, ?_, ?_, ?_, ?_, ?_, ?_, ?_, ?_⟩
    · exact col_sum_eq cfg items h _ _ (fun it => rfl)
    · exact col_sum_eq cfg items h _ _ (fun it => rfl)
    · exact col_sum_eq cfg items h _ _ (fun it => rfl)
    · exact col_sum_eq cfg items h _ _ (fun it => rfl)
    · exact col_sum_eq cfg items h _ _ (fun it => rfl)
    · exact col_sum_eq cfg items h _ _ (fun it => rfl)
    · exact col_sum_eq cfg items h _ _ (fun it => rfl)
    · exact col_sum_eq cfg items h _ _ (fun it => rfl)
    · exact col_sum_eq cfg items h _ _ (fun it => rfl)
  · intro h0 row hrow
    obtain ⟨it, hit, rfl⟩ := mem_computeLandedCost hrow
    refine ⟨?_, ?_, ?_, ?_, ?_, ?_, ?_, ?_, ?_⟩ <;>
      exact allocShare_zero_base items h h0 it _

/-! ## Claim C8: monotonicity of an item's unit cost in its unit price -/

/-- An item with its unit price replaced (the single-field mutation the
solver performs on one row). -/
def itP (b : LineItem) (p : ℚ) : LineItem := { b with fob_unit_usd := p }

theorem itP_quantity (b : LineItem) (p : ℚ) : (itP b p).quantity = b.quantity := rfl

theorem fobLineUSD_itP (b : LineItem) (p : ℚ) :
    fobLineUSD (itP b p) = p * b.quantity := rfl

/-- Per-item hypotheses of claim C8: non-negative quantity and price, all
per-item tax rates in `[0, 1)`. -/
def ItemOK (it : LineItem) : Prop :=
  0 ≤ it.quantity ∧ 0 ≤ it.fob_unit_usd ∧
    0 ≤ it.ii_rate ∧ it.ii_rate < 1 ∧ 0 ≤ it.ipi_rate ∧ it.ipi_rate < 1 ∧
    0 ≤ it.pis_rate ∧ it.pis_rate < 1 ∧ 0 ≤ it.cofins_rate ∧ it.cofins_rate < 1 ∧
    0 ≤ it.icms_rate ∧ it.icms_rate < 1

/-- Config hypotheses of claim C8: non-negative exchange rate and costs
(the spec requires the exchange rate positive), ICMS rate in `[0, 1)`. -/
def CfgOK (cfg : ShipmentConfig) : Prop :=
  0 ≤ cfg.fx_rate_usd_brl ∧ 0 ≤ cfg.freight_international_usd ∧
    0 ≤ cfg.insurance_usd ∧ 0 ≤ cfg.insurance_pct ∧ 0 ≤ cfg.origin_charges_usd ∧
    0 ≤ cfg.thc_origin_usd ∧ 0 ≤ cfg.afrmm_pct ∧ 0 ≤ cfg.siscomex_brl ∧
    0 ≤ cfg.local_port_costs_brl ∧ 0 ≤ cfg.trucking_brl ∧
    0 ≤ cfg.other_local_costs_brl ∧ 0 ≤ cfg.icms_rate ∧ cfg.icms_rate < 1

instance (it : LineItem) : Decidable (ItemOK it) := by unfold ItemOK; infer_instance

instance (cfg : ShipmentConfig) : Decidable (CfgOK cfg) := by unfold CfgOK; infer_instance

theorem itemOK_itP {b : LineItem} {p : ℚ} (hp : 0 ≤ p) (h : ItemOK b) : ItemOK (itP b p) := by
  obtain ⟨h1, _, h3⟩ := h
  exact ⟨h1, hp, h3⟩

theorem setPrice_length (items : List LineItem) (k : ℕ) (p : ℚ) :
    (setPrice items k p).length = items.length := by
  induction items generalizing k with
  | nil => rfl
  | cons a t ih =>
    cases k with
    | zero => rfl
    | succ k => simp [setPrice, ih]

theorem setPrice_getD (items : List LineItem) (k : ℕ) (p : ℚ) (d : LineItem)
    (hk : k < items.length) :
    (setPrice items k p).getD k d = itP (items.getD k d) p := by
  induction items generalizing k with
  | nil => simp at hk
  | cons a t ih =>
    cases k with
    | zero => rfl
    | succ k =>
      simp only [setPrice, List.getD_cons_succ]
      exact ih k (by simpa using hk)

theorem setPrice_mem {items : List LineItem} {k : ℕ} {p : ℚ} {it : LineItem}
    (h : it ∈ setPrice items k p) :
    it ∈ items ∨ ∃ b ∈ items, it = itP b p := by
  induction items generalizing k with
  | nil => simp [setPrice] at h
  | cons a t ih =>
    cases k with
    | zero =>
      simp only [setPrice] at h
      rcases List.mem_cons.mp h with h | h
      · exact Or.inr ⟨a, List.mem_cons_self a t, h⟩
      · exact Or.inl (List.mem_cons_of_mem a h)
    | succ k =>
      simp only [setPrice] at h
      rcases List.mem_cons.mp h with h | h
      · subst h
        exact Or.inl (List.mem_cons_self _ t)
      · rcases ih h with h' | ⟨b, hb, hb'⟩
        · exact Or.inl (List.mem_cons_of_mem a h')
        · exact Or.inr ⟨b, List.mem_cons_of_mem a hb, hb'⟩

theorem setPrice_itemsOK {items : List LineItem} {k : ℕ} {p : ℚ} (hp : 0 ≤ p)
    (h : ∀ it ∈ items, ItemOK it) : ∀ it ∈ setPrice items k p, ItemOK it := by
  intro it hit
  rcases setPrice_mem hit with h' | ⟨b, hb, rfl⟩
  · exact h it h'
  · exact itemOK_itP hp (h b hb)

theorem fobTotalUSD_nonneg (items : List LineItem) (h : ∀ it ∈ items, ItemOK it) :
    0 ≤ fobTotalUSD items := by
  induction items with
  | nil => simp [fobTotalUSD_nil]
  | cons a t ih =>
    rw [fobTotalUSD_cons]
    have ha := h a (List.mem_cons_self a t)
    have h1 : 0 ≤ fobLineUSD a := mul_nonneg ha.2.1 ha.1
    have h2 : 0 ≤ fobTotalUSD t := ih (fun it hit => h it (List.mem_cons_of_mem a hit))
    linarith

theorem fobTotalUSD_setPrice (items : List LineItem) (k : ℕ) (p : ℚ)
    (hk : k < items.length) :
    fobTotalUSD (setPrice items k p) =
      fobTotalUSD (setPrice items k 0) + p * (items.getD k default).quantity := by
  induction items generalizing k with
  | nil => simp at hk
  | cons a t ih =>
    cases k with
    | zero =>
      simp only [setPrice, fobTotalUSD_cons, List.getD_cons_zero, fobLineUSD]
      ring
    | succ k =>
      simp only [setPrice, fobTotalUSD_cons, List.getD_cons_succ]
      rw [ih k (by simpa using hk)]
      ring

theorem getD_map_of_lt (l : List LineItem) (g : LineItem → ℚ) (k : ℕ)
    (hk : k < l.length) (d0 : ℚ) (d : LineItem) :
    (l.map g).getD k d0 = g (l.getD k d) := by
  induction l generalizing k with
  | nil => simp at hk
  | cons a t ih =>
    cases k with
    | zero => rfl
    | succ k =>
      simp only [List.map_cons, List.getD_cons_succ]
      exact ih k (by simpa using hk)

theorem allocShare_itP_mono (b : LineItem) (S : ℚ) (n : ℕ) {p1 p2 : ℚ}
    (hS : 0 ≤ S) (hq : 0 ≤ b.quantity) (hp1 : 0 ≤ p1) (h12 : p1 ≤ p2) :
    allocShare (S + p1 * b.quantity) n (itP b p1) ≤
      allocShare (S + p2 * b.quantity) n (itP b p2) := by
  have ha1 : (0:ℚ) ≤ p1 * b.quantity := mul_nonneg hp1 hq
  have h12' : p1 * b.quantity ≤ p2 * b.quantity := mul_le_mul_of_nonneg_right h12 hq
  have hm : (1:ℚ) ≤ ((max n 1 : ℕ) : ℚ) := by
    exact_mod_cast le_max_right n 1
  simp only [allocShare, fobLineUSD_itP]
  split_ifs with h1 h2 h2
  · rw [div_le_div_iff₀ h1 h2]
    nlinarith [mul_le_mul_of_nonneg_right h12' hS]
  · exfalso; apply h2; linarith
  · have hS0 : S = 0 := by
      have : S + p1 * b.quantity ≤ 0 := not_lt.mp h1
      linarith
    rw [hS0, zero_add] at h2 ⊢
    rw [div_self (ne_of_gt h2)]
    rw [div_le_one (by linarith : (0:ℚ) < ((max n 1 : ℕ) : ℚ))]
    exact hm
  · exact le_refl _

theorem allocShare_itP_mul_total (b : LineItem) (S : ℚ) (n : ℕ) (p : ℚ)
    (hS : 0 ≤ S) (hpq : 0 ≤ p * b.quantity) :
    allocShare (S + p * b.quantity) n (itP b p) * (S + p * b.quantity) =
      p * b.quantity := by
  simp only [allocShare, fobLineUSD_itP]
  split_ifs with h
  · exact div_mul_cancel₀ _ (ne_of_gt h)
  · have h0 : S + p * b.quantity = 0 := le_antisymm (not_lt.mp h) (by linarith)
    rw [h0, mul_zero]
    linarith

theorem allocTimes_itP_mono (b : LineItem) (S : ℚ) (n : ℕ) {p1 p2 : ℚ} (C : ℚ)
    (hS : 0 ≤ S) (hq : 0 ≤ b.quantity) (hp1 : 0 ≤ p1) (h12 : p1 ≤ p2) (hC : 0 ≤ C) :
    allocShare (S + p1 * b.quantity) n (itP b p1) * C ≤
      allocShare (S + p2 * b.quantity) n (itP b p2) * C :=
  mul_le_mul_of_nonneg_right (allocShare_itP_mono b S n hS hq hp1 h12) hC

theorem insuranceCol_itP_mono (cfg : ShipmentConfig) (b : LineItem) (S : ℚ) (n : ℕ)
    {p1 p2 : ℚ} (hfx : 0 ≤ cfg.fx_rate_usd_brl) (hpct : 0 ≤ cfg.insurance_pct)
    (hS : 0 ≤ S) (hq : 0 ≤ b.quantity) (hp1 : 0 ≤ p1) (h12 : p1 ≤ p2) :
    insuranceCol cfg (S + p1 * b.quantity) n (itP b p1) ≤
      insuranceCol cfg (S + p2 * b.quantity) n (itP b p2) := by
  have ha1 : (0:ℚ) ≤ p1 * b.quantity := mul_nonneg hp1 hq
  have h12' : p1 * b.quantity ≤ p2 * b.quantity := mul_le_mul_of_nonneg_right h12 hq
  unfold insuranceCol insuranceUsdTotal
  split_ifs with h
  · exact allocTimes_itP_mono b S n _ hS hq hp1 h12 (mul_nonneg (le_of_lt h) hfx)
  · have e1 : allocShare (S + p1 * b.quantity) n (itP b p1) *
        ((S + p1 * b.quantity) * cfg.insurance_pct * cfg.fx_rate_usd_brl) =
        p1 * b.quantity * (cfg.insurance_pct * cfg.fx_rate_usd_brl) := by
      calc allocShare (S + p1 * b.quantity) n (itP b p1) *
            ((S + p1 * b.quantity) * cfg.insurance_pct * cfg.fx_rate_usd_brl) =
            allocShare (S + p1 * b.quantity) n (itP b p1) * (S + p1 * b.quantity) *
              (cfg.insurance_pct * cfg.fx_rate_usd_brl) := by ring
        _ = p1 * b.quantity * (cfg.insurance_pct * cfg.fx_rate_usd_brl) := by
            rw [allocShare_itP_mul_total b S n p1 hS ha1]
    have e2 : allocShare (S + p2 * b.quantity) n (itP b p2) *
        ((S + p2 * b.quantity) * cfg.insurance_pct * cfg.fx_rate_usd_brl) =
        p2 * b.quantity * (cfg.insurance_pct * cfg.fx_rate_usd_brl) := by
      calc allocShare (S + p2 * b.quantity) n (itP b p2) *
            ((S + p2 * b.quantity) * cfg.insurance_pct * cfg.fx_rate_usd_brl) =
            allocShare (S + p2 * b.quantity) n (itP b p2) * (S + p2 * b.quantity) *
              (cfg.insurance_pct * cfg.fx_rate_usd_brl) := by ring
        _ = p2 * b.quantity * (cfg.insurance_pct * cfg.fx_rate_usd_brl) := by
            rw [allocShare_itP_mul_total b S n p2 hS (le_trans ha1 h12')]
    rw [e1, e2]
    exact mul_le_mul_of_nonneg_right h12' (mul_nonneg hpct hfx)

theorem vaCol_itP_mono (cfg : ShipmentConfig) (b : LineItem) (S : ℚ) (n : ℕ)
    {p1 p2 : ℚ} (hcfg : CfgOK cfg)
    (hS : 0 ≤ S) (hq : 0 ≤ b.quantity) (hp1 : 0 ≤ p1) (h12 : p1 ≤ p2) :
    vaCol cfg (S + p1 * b.quantity) n (itP b p1) ≤
      vaCol cfg (S + p2 * b.quantity) n (itP b p2) := by
  obtain ⟨hfx, hfr, hiu, hipct, hoc, hth, haf, hsis, hlp, htr, hol, hic0, hic1⟩ := hcfg
  have h12' : p1 * b.quantity ≤ p2 * b.quantity := mul_le_mul_of_nonneg_right h12 hq
  unfold vaCol
  have hfob : fobTotalBRLcol cfg (itP b p1) ≤ fobTotalBRLcol cfg (itP b p2) := by
    unfold fobTotalBRLcol
    rw [fobLineUSD_itP, fobLineUSD_itP]
    exact mul_le_mul_of_nonneg_right h12' hfx
  have hsum : (cfg.va_components.map (fun comp =>
      if comp = "freight" then freightCol cfg (S + p1 * b.quantity) n (itP b p1)
      else if comp = "insurance" then insuranceCol cfg (S + p1 * b.quantity) n (itP b p1)
      else if comp = "origin_charges" then originCol cfg (S + p1 * b.quantity) n (itP b p1)
      else if comp = "thc_origin" then thcOriginCol cfg (S + p1 * b.quantity) n (itP b p1)
      else 0)).sum ≤
      (cfg.va_components.map (fun comp =>
      if comp = "freight" then freightCol cfg (S + p2 * b.quantity) n (itP b p2)
      else if comp = "insurance" then insuranceCol cfg (S + p2 * b.quantity) n (itP b p2)
      else if comp = "origin_charges" then originCol cfg (S + p2 * b.quantity) n (itP b p2)
      else if comp = "thc_origin" then thcOriginCol cfg (S + p2 * b.quantity) n (itP b p2)
      else 0)).sum := by
    apply List.sum_le_sum
    intro comp _
    split_ifs
    · exact allocTimes_itP_mono b S n _ hS hq hp1 h12 (mul_nonneg hfr hfx)
    · exact insuranceCol_itP_mono cfg b S n hfx hipct hS hq hp1 h12
    · exact allocTimes_itP_mono b S n _ hS hq hp1 h12 (mul_nonneg hoc hfx)
    · exact allocTimes_itP_mono b S n _ hS hq hp1 h12 (mul_nonneg hth hfx)
    · exact le_refl 0
  exact add_le_add hfob hsum

theorem daForIcmsCol_itP_mono (cfg : ShipmentConfig) (b : LineItem) (S : ℚ) (n : ℕ)
    {p1 p2 : ℚ} (hcfg : CfgOK cfg)
    (hS : 0 ≤ S) (hq : 0 ≤ b.quantity) (hp1 : 0 ≤ p1) (h12 : p1 ≤ p2) :
    daForIcmsCol cfg (S + p1 * b.quantity) n (itP b p1) ≤
      daForIcmsCol cfg (S + p2 * b.quantity) n (itP b p2) := by
  obtain ⟨hfx, hfr, hiu, hipct, hoc, hth, haf, hsis, hlp, htr, hol, hic0, hic1⟩ := hcfg
  unfold daForIcmsCol
  apply List.sum_le_sum
  intro daName _
  split_ifs
  · exact allocTimes_itP_mono b S n _ hS hq hp1 h12
      (mul_nonneg (mul_nonneg haf hfr) hfx)
  · exact allocTimes_itP_mono b S n _ hS hq hp1 h12 hsis
  · exact le_refl 0

theorem unitCostCol_itP_mono (cfg : ShipmentConfig) (b : LineItem) (S : ℚ) (n : ℕ)
    {p1 p2 : ℚ} (hcfg : CfgOK cfg) (hb : ItemOK b)
    (hS : 0 ≤ S) (hp1 : 0 ≤ p1) (h12 : p1 ≤ p2) :
    unitCostCol cfg (S + p1 * b.quantity) n (itP b p1) ≤
      unitCostCol cfg (S + p2 * b.quantity) n (itP b p2) := by
  obtain ⟨hq, hfob0, hii0, hii1, hipi0, hipi1, hpis0, hpis1, hcof0, hcof1, hitic0, hitic1⟩ := hb
  have hfx := hcfg.1
  have h12' : p1 * b.quantity ≤ p2 * b.quantity :=
    mul_le_mul_of_nonneg_right h12 hq
  have hva : vaCol cfg (S + p1 * b.quantity) n (itP b p1) ≤
      vaCol cfg (S + p2 * b.quantity) n (itP b p2) :=
    vaCol_itP_mono cfg b S n hcfg hS hq hp1 h12
  have hii : iiCol cfg (S + p1 * b.quantity) n (itP b p1) ≤
      iiCol cfg (S + p2 * b.quantity) n (itP b p2) := by
    unfold iiCol
    exact mul_le_mul_of_nonneg_left hva hii0
  have hipib : ipiBaseCol cfg (S + p1 * b.quantity) n (itP b p1) ≤
      ipiBaseCol cfg (S + p2 * b.quantity) n (itP b p2) := add_le_add hva hii
  have hipi : ipiCol cfg (S + p1 * b.quantity) n (itP b p1) ≤
      ipiCol cfg (S + p2 * b.quantity) n (itP b p2) := by
    unfold ipiCol
    exact mul_le_mul_of_nonneg_left hipib hipi0
  have hpcb : pisCofBaseCol cfg (S + p1 * b.quantity) n (itP b p1) ≤
      pisCofBaseCol cfg (S + p2 * b.quantity) n (itP b p2) :=
    add_le_add (add_le_add hva hii) hipi
  have hpis : pisCol cfg (S + p1 * b.quantity) n (itP b p1) ≤
      pisCol cfg (S + p2 * b.quantity) n (itP b p2) := by
    unfold pisCol
    exact mul_le_mul_of_nonneg_left hpcb hpis0
  have hcof : cofinsCol cfg (S + p1 * b.quantity) n (itP b p1) ≤
      cofinsCol cfg (S + p2 * b.quantity) n (itP b p2) := by
    unfold cofinsCol
    exact mul_le_mul_of_nonneg_left hpcb hcof0
  have hda : daForIcmsCol cfg (S + p1 * b.quantity) n (itP b p1) ≤
      daForIcmsCol cfg (S + p2 * b.quantity) n (itP b p2) :=
    daForIcmsCol_itP_mono cfg b S n hcfg hS hq hp1 h12
  have hnum : icmsNumerCol cfg (S + p1 * b.quantity) n (itP b p1) ≤
      icmsNumerCol cfg (S + p2 * b.quantity) n (itP b p2) := by
    unfold icmsNumerCol
    linarith
  have hicms : icmsCol cfg (S + p1 * b.quantity) n (itP b p1) ≤
      icmsCol cfg (S + p2 * b.quantity) n (itP b p2) := by
    unfold icmsCol
    split_ifs with h
    · have hden : (0:ℚ) < 1 - cfg.icms_rate := by
        have := hcfg.2.2.2.2.2.2.2.2.2.2.2.2
        linarith
      rw [div_le_div_iff_of_pos_right hden]
      exact mul_le_mul_of_nonneg_right hnum (le_of_lt h)
    · exact le_refl 0
  have hnet : netTaxCol cfg (S + p1 * b.quantity) n (itP b p1) ≤
      netTaxCol cfg (S + p2 * b.quantity) n (itP b p2) := by
    unfold netTaxCol taxPaidCol taxCreditCol taxCredit
    split_ifs <;> linarith
  have hfobc : fobTotalBRLcol cfg (itP b p1) ≤ fobTotalBRLcol cfg (itP b p2) := by
    unfold fobTotalBRLcol
    rw [fobLineUSD_itP, fobLineUSD_itP]
    exact mul_le_mul_of_nonneg_right h12' hfx
  have hfr' : freightCol cfg (S + p1 * b.quantity) n (itP b p1) ≤
      freightCol cfg (S + p2 * b.quantity) n (itP b p2) :=
    allocTimes_itP_mono b S n _ hS hq hp1 h12 (mul_nonneg hcfg.2.1 hfx)
  have hins' : insuranceCol cfg (S + p1 * b.quantity) n (itP b p1) ≤
      insuranceCol cfg (S + p2 * b.quantity) n (itP b p2) :=
    insuranceCol_itP_mono cfg b S n hfx hcfg.2.2.2.1 hS hq hp1 h12
  have hor' : originCol cfg (S + p1 * b.quantity) n (itP b p1) ≤
      originCol cfg (S + p2 * b.quantity) n (itP b p2) :=
    allocTimes_itP_mono b S n _ hS hq hp1 h12 (mul_nonneg hcfg.2.2.2.2.1 hfx)
  have hth' : thcOriginCol cfg (S + p1 * b.quantity) n (itP b p1) ≤
      thcOriginCol cfg (S + p2 * b.quantity) n (itP b p2) :=
    allocTimes_itP_mono b S n _ hS hq hp1 h12 (mul_nonneg hcfg.2.2.2.2.2.1 hfx)
  have haf' : afrmmCol cfg (S + p1 * b.quantity) n (itP b p1) ≤
      afrmmCol cfg (S + p2 * b.quantity) n (itP b p2) :=
    allocTimes_itP_mono b S n _ hS hq hp1 h12
      (mul_nonneg (mul_nonneg hcfg.2.2.2.2.2.2.1 hcfg.2.1) hfx)
  have hsis' : siscomexCol cfg (S + p1 * b.quantity) n (itP b p1) ≤
      siscomexCol cfg (S + p2 * b.quantity) n (itP b p2) :=
    allocTimes_itP_mono b S n _ hS hq hp1 h12 hcfg.2.2.2.2.2.2.2.1
  have hlp' : localPortCol cfg (S + p1 * b.quantity) n (itP b p1) ≤
      localPortCol cfg (S + p2 * b.quantity) n (itP b p2) :=
    allocTimes_itP_mono b S n _ hS hq hp1 h12 hcfg.2.2.2.2.2.2.2.2.1
  have htr' : truckCol cfg (S + p1 * b.quantity) n (itP b p1) ≤
      truckCol cfg (S + p2 * b.quantity) n (itP b p2) :=
    allocTimes_itP_mono b S n _ hS hq hp1 h12 hcfg.2.2.2.2.2.2.2.2.2.1
  have hol' : otherLocalCol cfg (S + p1 * b.quantity) n (itP b p1) ≤
      otherLocalCol cfg (S + p2 * b.quantity) n (itP b p2) :=
    allocTimes_itP_mono b S n _ hS hq hp1 h12 hcfg.2.2.2.2.2.2.2.2.2.2.1
  have hlanded : landedCostCol cfg (S + p1 * b.quantity) n (itP b p1) ≤
      landedCostCol cfg (S + p2 * b.quantity) n (itP b p2) := by
    unfold landedCostCol directCostsCol
    linarith
  unfold unitCostCol
  rw [itP_quantity, itP_quantity]
  have hd : (0:ℚ) < if b.quantity = 0 then 1 else b.quantity := by
    split_ifs with h
    · norm_num
    · exact lt_of_le_of_ne hq (Ne.symm h)
  rw [div_le_div_iff_of_pos_right hd]
  exact hlanded

theorem unitCostAt_setPrice (items : List LineItem) (cfg : ShipmentConfig) (k : ℕ)
    (p : ℚ) (hk : k < items.length) :
    unitCostAt (setPrice items k p) cfg k =
      unitCostCol cfg (fobTotalUSD (setPrice items k p)) items.length
        (itP (items.getD k default) p) := by
  unfold unitCostAt
  have h1 : (computeLandedCost (setPrice items k p) cfg).1 =
      (setPrice items k p).map
        (rowOf cfg (fobTotalUSD (setPrice items k p)) items.length) := by
    simp [computeLandedCost, setPrice_length]
  rw [h1, List.map_map]
  have hk' : k < (setPrice items k p).length := by
    rw [setPrice_length]; exact hk
  rw [getD_map_of_lt _ _ k hk' 0 default]
  rw [setPrice_getD items k p default hk]
  rfl

/-- Claim C8: for a fixed config with exchange rate, costs, quantities and
prices non-negative and all tax rates in `[0, 1)`, the landed unit cost of
the item at position `k` is non-decreasing in that item's unit price. -/
theorem unit_cost_monotone_in_price (cfg : ShipmentConfig) (items : List LineItem)
    (k : ℕ) (p1 p2 : ℚ) (hcfg : CfgOK cfg) (hitems : ∀ it ∈ items, ItemOK it)
    (hk : k < items.length) (hp1 : 0 ≤ p1) (h12 : p1 ≤ p2) :
    unitCostAt (setPrice items k p1) cfg k ≤ unitCostAt (setPrice items k p2) cfg k := by
  have hb : ItemOK (items.getD k default) := by
    apply hitems
    rw [List.getD_eq_getElem items default hk]
    exact List.getElem_mem hk
  have hS : 0 ≤ fobTotalUSD (setPrice items k 0) :=
    fobTotalUSD_nonneg _ (setPrice_itemsOK (le_refl 0) hitems)
  rw [unitCostAt_setPrice items cfg k p1 hk, unitCostAt_setPrice items cfg k p2 hk,
    fobTotalUSD_setPrice items k p1 hk, fobTotalUSD_setPrice items k p2 hk]
  exact unitCostCol_itP_mono cfg (items.getD k default)
    (fobTotalUSD (setPrice items k 0)) items.length hcfg hb hS hp1 h12

/-! ## Concrete fixtures for counterexamples and witnesses -/

theorem str_real_ne_simples : ("real" : String) ≠ "simples" := by decide

theorem str_industrialization_ne_resale : ("industrialization" : String) ≠ "resale" := by decide

/-- A minimal config: fx 1, no shared costs, regime Simples, resale,
ICMS rate 0, default VA / DA component lists. -/
def cfgBase : ShipmentConfig :=
  { state_destination := "RS", mode := "LCL", fx_rate_usd_brl := 1,
    freight_international_usd := 0, insurance_usd := 0, insurance_pct := 0,
    origin_charges_usd := 0, thc_origin_usd := 0, afrmm_pct := 0,
    siscomex_brl := 0, local_port_costs_brl := 0, trucking_brl := 0,
    other_local_costs_brl := 0, regime := "simples", purpose := "resale",
    icms_rate := 0, da_components := ["afrmm", "siscomex"],
    va_components := ["freight", "insurance", "origin_charges", "thc_origin"],
    allocation_method := "FOB" }

/-- One unit at 100 USD, all per-item rates zero. -/
def itemBase : LineItem :=
  { quantity := 1, fob_unit_usd := 100, ii_rate := 0, ipi_rate := 0,
    pis_rate := 0, cofins_rate := 0, icms_rate := 0 }

/-! ### C2: purpose `"industrialization"` gets zero credits -/

def cfgC2 : ShipmentConfig := { cfgBase with regime := "real", purpose := "industrialization" }

def itemC2 : LineItem := { itemBase with ipi_rate := 1/10 }

def rowC2 : ItemResult := (computeLandedCost [itemC2] cfgC2).1.getD 0 default

/-- Counterexample to claim C2 as stated: with regime `"real"` and purpose
`"industrialization"` (which the claim calls equivalent to resale) the
engine credits nothing, although the four creditable taxes total 10. -/
theorem tax_credit_industrialization_cex :
    cfgC2.regime = "real" ∧ cfgC2.purpose = "industrialization" ∧
      rowC2.Tax_Credit_BRL = 0 ∧
      rowC2.IPI_BRL + rowC2.PIS_BRL + rowC2.COFINS_BRL + rowC2.ICMS_BRL = 10 ∧
      rowC2.Tax_Credit_BRL ≠ rowC2.IPI_BRL + rowC2.PIS_BRL + rowC2.COFINS_BRL + rowC2.ICMS_BRL := by
  refine ⟨rfl, rfl, ?_, ?_, ?_⟩ <;>
    norm_num [rowC2, itemC2, cfgC2, cfgBase, itemBase, computeLandedCost, rowOf,
      taxCreditCol, taxCredit, icmsCol, icmsNumerCol, daForIcmsCol, cofinsCol, pisCol,
      pisCofBaseCol, ipiCol, ipiBaseCol, iiCol, vaCol, fobTotalBRLcol, insuranceUsdTotal,
      freightTotalBRL, afrmmTotalBRL, allocShare, fobTotalUSD, fobLineUSD,
      freightCol, insuranceCol, originCol, thcOriginCol, afrmmCol, siscomexCol,
      str_real_ne_simples, str_industrialization_ne_resale]

def cfgW2 : ShipmentConfig := { cfgBase with regime := "presumido" }

def rowW2 : ItemResult := (computeLandedCost [itemC2] cfgW2).1.getD 0 default

/-- Witness for the amended C2 theorem at a concrete input. -/
theorem tax_credit_matrix_witness :
    rowW2 ∈ (computeLandedCost [itemC2] cfgW2).1 ∧
      ((cfgW2.regime = "simples" → rowW2.Tax_Credit_BRL = 0) ∧
        (cfgW2.purpose ≠ "resale" → rowW2.Tax_Credit_BRL = 0) ∧
        (cfgW2.regime = "presumido" → cfgW2.purpose = "resale" →
          rowW2.Tax_Credit_BRL = rowW2.IPI_BRL + rowW2.ICMS_BRL) ∧
        (cfgW2.regime = "real" → cfgW2.purpose = "resale" →
          rowW2.Tax_Credit_BRL =
            rowW2.IPI_BRL + rowW2.PIS_BRL + rowW2.COFINS_BRL + rowW2.ICMS_BRL) ∧
        rowW2.net_tax_total =
          rowW2.II_BRL + rowW2.IPI_BRL + rowW2.PIS_BRL + rowW2.COFINS_BRL + rowW2.ICMS_BRL -
            rowW2.Tax_Credit_BRL) :=
  have hrow : rowW2 ∈ (computeLandedCost [itemC2] cfgW2).1 := List.mem_cons_self rowW2 []
  ⟨hrow, tax_credit_matrix [itemC2] cfgW2 rowW2 hrow⟩

/-! ### C4: quantity 0 yields unit cost = landed cost, not 0 -/

def cfgC4 : ShipmentConfig := { cfgBase with siscomex_brl := 100 }

def itemC4 : LineItem := { itemBase with quantity := 0, fob_unit_usd := 0 }

def rowC4 : ItemResult := (computeLandedCost [itemC4] cfgC4).1.getD 0 default

/-- Counterexample to claim C4 as stated: a zero-quantity item that carries
the whole allocated Siscomex fee of 100 gets unit cost 100, not 0. -/
theorem zero_quantity_unit_cost_cex :
    rowC4.Quantity = 0 ∧ rowC4.Unit_Cost_BRL = 100 ∧ rowC4.Unit_Cost_BRL ≠ 0 := by
  refine ⟨rfl, ?_, ?_⟩ <;>
    norm_num [rowC4, cfgC4, cfgBase, itemC4, itemBase, computeLandedCost, rowOf,
      unitCostCol, landedCostCol, directCostsCol, netTaxCol, taxPaidCol, taxCreditCol,
      taxCredit, icmsCol, icmsNumerCol, daForIcmsCol, cofinsCol, pisCol,
      pisCofBaseCol, ipiCol, ipiBaseCol, iiCol, vaCol, fobTotalBRLcol, insuranceUsdTotal,
      freightTotalBRL, afrmmTotalBRL, allocShare, fobTotalUSD, fobLineUSD,
      freightCol, insuranceCol, originCol, thcOriginCol, afrmmCol, siscomexCol,
      localPortCol, truckCol, otherLocalCol]

/-- Witness for the amended C4 theorem at a concrete input. -/
theorem zero_quantity_unit_cost_witness :
    rowC4 ∈ (computeLandedCost [itemC4] cfgC4).1 ∧ rowC4.Quantity = 0 ∧
      rowC4.Unit_Cost_BRL = rowC4.Landed_Cost_BRL :=
  have hrow : rowC4 ∈ (computeLandedCost [itemC4] cfgC4).1 := List.mem_cons_self rowC4 []
  ⟨hrow, rfl, zero_quantity_unit_cost [itemC4] cfgC4 rowC4 hrow rfl⟩

/-! ### C5: the contribution base includes II and IPI -/

def itemC5 : LineItem := { itemBase with ii_rate := 1/10, pis_rate := 1/10 }

def rowC5 : ItemResult := (computeLandedCost [itemC5] cfgBase).1.getD 0 default

/-- Counterexample to claim C5 as stated: with II at 10% the PIS amount is
`0.1 × (100 + 10) = 11`, not `0.1 × 100 = 10`. -/
theorem pis_cofins_customs_value_cex :
    rowC5.PIS_BRL = 11 ∧ rowC5.PIS_rate * rowC5.VA_BRL = 10 ∧
      rowC5.PIS_BRL ≠ rowC5.PIS_rate * rowC5.VA_BRL := by
  refine ⟨?_, ?_, ?_⟩ <;>
    norm_num [rowC5, itemC5, cfgBase, itemBase, computeLandedCost, rowOf,
      pisCol, pisCofBaseCol, vaCol, iiCol, ipiCol, ipiBaseCol, fobTotalBRLcol,
      freightCol, insuranceCol, originCol, thcOriginCol, insuranceUsdTotal,
      freightTotalBRL, allocShare, fobTotalUSD, fobLineUSD]

/-- Witness for the amended C5 theorem at a concrete input. -/
theorem pis_cofins_base_witness :
    rowC5 ∈ (computeLandedCost [itemC5] cfgBase).1 ∧
      (rowC5.PIS_BRL = rowC5.PIS_rate * (rowC5.VA_BRL + rowC5.II_BRL + rowC5.IPI_BRL) ∧
        rowC5.COFINS_BRL = rowC5.COFINS_rate * (rowC5.VA_BRL + rowC5.II_BRL + rowC5.IPI_BRL)) :=
  have hrow : rowC5 ∈ (computeLandedCost [itemC5] cfgBase).1 := List.mem_cons_self rowC5 []
  ⟨hrow, pis_cofins_base [itemC5] cfgBase rowC5 hrow⟩

/-! ### C1: gross-up witness -/

def cfgW1 : ShipmentConfig := { cfgBase with icms_rate := 1/5 }

def rowW1 : ItemResult := (computeLandedCost [itemBase] cfgW1).1.getD 0 default

/-- Witness for the C1 theorem at a concrete input (rate 20%, base 100:
the state VAT is `100 / 0.8 − 100 = 25`). -/
theorem icms_grossup_correct_witness :
    rowW1 ∈ (computeLandedCost [itemBase] cfgW1).1 ∧
      0 < cfgW1.icms_rate ∧ cfgW1.icms_rate < 1 ∧
      (rowW1.ICMS_BRL =
          (rowW1.VA_BRL + rowW1.II_BRL + rowW1.IPI_BRL + rowW1.PIS_BRL + rowW1.COFINS_BRL +
              rowW1.DA_for_ICMS_BRL) / (1 - cfgW1.icms_rate) -
            (rowW1.VA_BRL + rowW1.II_BRL + rowW1.IPI_BRL + rowW1.PIS_BRL + rowW1.COFINS_BRL +
              rowW1.DA_for_ICMS_BRL) ∧
        (cfgW1.da_components = ["afrmm", "siscomex"] →
          rowW1.DA_for_ICMS_BRL = rowW1.AFRMM_BRL + rowW1.Siscomex_BRL)) :=
  have hrow : rowW1 ∈ (computeLandedCost [itemBase] cfgW1).1 := List.mem_cons_self rowW1 []
  have h0 : 0 < cfgW1.icms_rate := by norm_num [cfgW1, cfgBase]
  have h1 : cfgW1.icms_rate < 1 := by norm_num [cfgW1, cfgBase]
  ⟨hrow, h0, h1, icms_grossup_correct [itemBase] cfgW1 rowW1 hrow h0 h1⟩

/-! ### C6: the nonzero per-item override is not used -/

def cfgC6 : ShipmentConfig := { cfgBase with icms_rate := 1/5 }

def itemC6 : LineItem := { itemBase with icms_rate := 1/2 }

def rowC6 : ItemResult := (computeLandedCost [itemC6] cfgC6).1.getD 0 default

/-- Counterexample to claim C6 as stated: the item carries a nonzero
override rate of 50%, under which the gross-up would give 100, but the
engine taxes it at the shipment rate of 20%, giving 25. -/
theorem icms_override_used_cex :
    rowC6.ICMS_rate = 1/2 ∧ rowC6.ICMS_BRL = 25 ∧
      rowC6.ICMS_BRL ≠
        (rowC6.VA_BRL + rowC6.II_BRL + rowC6.IPI_BRL + rowC6.PIS_BRL + rowC6.COFINS_BRL +
            rowC6.DA_for_ICMS_BRL) * rowC6.ICMS_rate / (1 - rowC6.ICMS_rate) := by
  refine ⟨rfl, ?_, ?_⟩ <;>
    norm_num [rowC6, cfgC6, itemC6, cfgBase, itemBase, computeLandedCost, rowOf,
      icmsCol, icmsNumerCol, daForIcmsCol, cofinsCol, pisCol,
      pisCofBaseCol, ipiCol, ipiBaseCol, iiCol, vaCol, fobTotalBRLcol, insuranceUsdTotal,
      freightTotalBRL, afrmmTotalBRL, allocShare, fobTotalUSD, fobLineUSD,
      freightCol, insuranceCol, originCol, thcOriginCol, afrmmCol, siscomexCol]

/-! ### C7: rate ≥ 1 is not guarded -/

def cfgC7 : ShipmentConfig := { cfgBase with icms_rate := 2 }

def rowC7 : ItemResult := (computeLandedCost [itemBase] cfgC7).1.getD 0 default

/-- Counterexample to claim C7 as stated: at ICMS rate 2 (≥ 1) the engine
does not return 0 — the formula is applied and yields `100·2/(1−2) = −200`. -/
theorem icms_rate_ge_one_cex :
    cfgC7.icms_rate = 2 ∧ rowC7.ICMS_BRL = -200 ∧ rowC7.ICMS_BRL ≠ 0 := by
  refine ⟨rfl, ?_, ?_⟩ <;>
    norm_num [rowC7, cfgC7, cfgBase, itemBase, computeLandedCost, rowOf,
      icmsCol, icmsNumerCol, daForIcmsCol, cofinsCol, pisCol,
      pisCofBaseCol, ipiCol, ipiBaseCol, iiCol, vaCol, fobTotalBRLcol, insuranceUsdTotal,
      freightTotalBRL, afrmmTotalBRL, allocShare, fobTotalUSD, fobLineUSD,
      freightCol, insuranceCol, originCol, thcOriginCol, afrmmCol, siscomexCol]

/-- Witness for the amended C7 theorem at a concrete input. -/
theorem icms_guard_only_nonpositive_witness :
    rowC7 ∈ (computeLandedCost [itemBase] cfgC7).1 ∧
      ((cfgC7.icms_rate ≤ 0 → rowC7.ICMS_BRL = 0) ∧
        (1 < cfgC7.icms_rate →
          rowC7.ICMS_BRL =
            (rowC7.VA_BRL + rowC7.II_BRL + rowC7.IPI_BRL + rowC7.PIS_BRL + rowC7.COFINS_BRL +
                rowC7.DA_for_ICMS_BRL) * cfgC7.icms_rate / (1 - cfgC7.icms_rate))) :=
  have hrow : rowC7 ∈ (computeLandedCost [itemBase] cfgC7).1 := List.mem_cons_self rowC7 []
  ⟨hrow, icms_guard_only_nonpositive [itemBase] cfgC7 rowC7 hrow⟩

/-! ### C10: empty input, nonzero freight summary field -/

def cfgC10 : ShipmentConfig :=
  { cfgBase with freight_international_usd := 100, fx_rate_usd_brl := 5 }

/-- Counterexample to claim C10 as stated: on an empty table the summary's
`Freight_total_BRL` is `100 × 5 = 500`, not 0. -/
theorem empty_summary_freight_cex :
    (computeLandedCost [] cfgC10).2.Freight_total_BRL = 500 ∧
      (computeLandedCost [] cfgC10).2.Freight_total_BRL ≠ 0 := by
  constructor <;>
    norm_num [computeLandedCost, freightTotalBRL, cfgC10, cfgBase]

/-! ### C3 witness -/

def cfgW3 : ShipmentConfig :=
  { cfgBase with freight_international_usd := 10, siscomex_brl := 20 }

def itemsW3 : List LineItem := [itemBase, { itemBase with fob_unit_usd := 50 }]

/-- Witness for the C3 theorem at a concrete two-item shipment. -/
theorem allocation_conservation_witness :
    itemsW3 ≠ [] ∧
      ((((computeLandedCost itemsW3 cfgW3).1.map (fun r => r.Freight_BRL)).sum =
          freightTotalBRL cfgW3 ∧
        ((computeLandedCost itemsW3 cfgW3).1.map (fun r => r.Insurance_BRL)).sum =
          insuranceUsdTotal cfgW3 (fobTotalUSD itemsW3) * cfgW3.fx_rate_usd_brl ∧
        ((computeLandedCost itemsW3 cfgW3).1.map (fun r => r.Origin_BRL)).sum =
          cfgW3.origin_charges_usd * cfgW3.fx_rate_usd_brl ∧
        ((computeLandedCost itemsW3 cfgW3).1.map (fun r => r.THC_Origin_BRL)).sum =
          cfgW3.thc_origin_usd * cfgW3.fx_rate_usd_brl ∧
        ((computeLandedCost itemsW3 cfgW3).1.map (fun r => r.AFRMM_BRL)).sum =
          afrmmTotalBRL cfgW3 ∧
        ((computeLandedCost itemsW3 cfgW3).1.map (fun r => r.Siscomex_BRL)).sum =
          cfgW3.siscomex_brl ∧
        ((computeLandedCost itemsW3 cfgW3).1.map (fun r => r.Local_Port_BRL)).sum =
          cfgW3.local_port_costs_brl ∧
        ((computeLandedCost itemsW3 cfgW3).1.map (fun r => r.Truck_BRL)).sum =
          cfgW3.trucking_brl ∧
        ((computeLandedCost itemsW3 cfgW3).1.map (fun r => r.Other_Local_BRL)).sum =
          cfgW3.other_local_costs_brl) ∧
      (fobTotalUSD itemsW3 = 0 → ∀ row ∈ (computeLandedCost itemsW3 cfgW3).1,
        row.Freight_BRL = freightTotalBRL cfgW3 / (itemsW3.length : ℚ) ∧
        row.Insurance_BRL =
          insuranceUsdTotal cfgW3 (fobTotalUSD itemsW3) * cfgW3.fx_rate_usd_brl /
            (itemsW3.length : ℚ) ∧
        row.Origin_BRL =
          cfgW3.origin_charges_usd * cfgW3.fx_rate_usd_brl / (itemsW3.length : ℚ) ∧
        row.THC_Origin_BRL =
          cfgW3.thc_origin_usd * cfgW3.fx_rate_usd_brl / (itemsW3.length : ℚ) ∧
        row.AFRMM_BRL = afrmmTotalBRL cfgW3 / (itemsW3.length : ℚ) ∧
        row.Siscomex_BRL = cfgW3.siscomex_brl / (itemsW3.length : ℚ) ∧
        row.Local_Port_BRL = cfgW3.local_port_costs_brl / (itemsW3.length : ℚ) ∧
        row.Truck_BRL = cfgW3.trucking_brl / (itemsW3.length : ℚ) ∧
        row.Other_Local_BRL = cfgW3.other_local_costs_brl / (itemsW3.length : ℚ))) :=
  have hne : itemsW3 ≠ [] := List.cons_ne_nil _ _
  ⟨hne, allocation_conservation cfgW3 itemsW3 hne⟩

/-! ### C8 witness -/

def cfgW8 : ShipmentConfig :=
  { cfgBase with
    fx_rate_usd_brl := 11/2
    freight_international_usd := 10
    insurance_pct := 1/1000
    afrmm_pct := 2/25
    siscomex_brl := 154
    trucking_brl := 50
    regime := "real"
    icms_rate := 17/100 }

def itemsW8 : List LineItem :=
  [{ quantity := 5, fob_unit_usd := 2, ii_rate := 1/10, ipi_rate := 1/20,
     pis_rate := 21/1000, cofins_rate := 193/2000, icms_rate := 0 },
   { itemBase with fob_unit_usd := 3 }]

/-- Witness for the C8 theorem at a concrete input: raising item 0's unit
price from 1 to 2 does not lower its landed unit cost. -/
theorem unit_cost_monotone_in_price_witness :
    CfgOK cfgW8 ∧ (∀ it ∈ itemsW8, ItemOK it) ∧ 0 < itemsW8.length ∧
      (0:ℚ) ≤ 1 ∧ (1:ℚ) ≤ 2 ∧
      unitCostAt (setPrice itemsW8 0 1) cfgW8 0 ≤ unitCostAt (setPrice itemsW8 0 2) cfgW8 0 := by
  have hcfg : CfgOK cfgW8 := by norm_num [CfgOK, cfgW8, cfgBase]
  have hitems : ∀ it ∈ itemsW8, ItemOK it := by
    intro it hit
    simp only [itemsW8, List.mem_cons, List.not_mem_nil, or_false] at hit
    rcases hit with rfl | rfl <;> norm_num [ItemOK, itemBase]
  have hk : 0 < itemsW8.length := by norm_num [itemsW8]
  exact ⟨hcfg, hitems, hk, by norm_num, by norm_num,
    unit_cost_monotone_in_price cfgW8 itemsW8 0 1 2 hcfg hitems hk (by norm_num)
      (by norm_num)⟩
